/-
Verification development for the cdxgen CycloneDX BOM generator core
(src/index.js): component assembly and deduplication (`listComponents`,
`addComponent`), hash normalization (`processHashes`, `addComponentHash`),
and the BOM serializer envelope (`buildBomString`, `addMetadata`).

The JavaScript source is shallowly embedded: package records become an
inductive tree type whose dependency entries are either nested records or
string cycle markers, the insertion-ordered JS object used as the component
map becomes an association list, and the two side-effecting entry points
become pure functions.  External libraries used by the source are modelled
where their behaviour is observable in the claims:
`parse-packagejson-name` (scoped-name splitting), `packageurl-js`
(purl rendering for records without qualifiers/subpath, which the
assembly engine never sets), `ssri` (represented by its parse result: the
first digest per algorithm), and Node's `Buffer` base64 round-trip check
(canonical base64 with padding).  Nondeterministic inputs of the serializer
(`uuidv4()`, `new Date()`) are explicit arguments.
-/
import Mathlib

namespace Cdxgen

/-- JS truthiness for an optional string field: `undefined`/`null` and the
empty string are falsy. -/
def truthyS : Option String → Bool
  | none => false
  | some s => s ≠ ""

/-- Hex digit test used by the CycloneDX `HASH_PATTERN` regex class
`[a-fA-F0-9]`. -/
def isHexChar (c : Char) : Bool :=
  (('0' ≤ c && c ≤ '9') || ('a' ≤ c && c ≤ 'f') || ('A' ≤ c && c ≤ 'F'))

/-- The constant `HASH_PATTERN` from src/index.js line 52: anchored alternation of
32, 40, 64, 96 or 128 hex characters. -/
def matchesHashPattern (s : String) : Bool :=
  (s.length == 32 || s.length == 40 || s.length == 64 ||
   s.length == 96 || s.length == 128) && s.data.all isHexChar

/-- Lowercase hex digit for a value below 16. -/
def hexDigit (n : Nat) : Char :=
  if n < 10 then Char.ofNat (48 + n) else Char.ofNat (87 + n)

/-- One byte as two lowercase hex digits (Node `buf.toString("hex")`). -/
def hexOfByte (b : Nat) : List Char :=
  [hexDigit (b / 16 % 16), hexDigit (b % 16)]

/-- Byte list as a lowercase hex string. -/
def hexOfBytes (bs : List Nat) : String :=
  ⟨bs.flatMap hexOfByte⟩

/-- Standard base64 alphabet: value of a character, `none` if invalid. -/
def b64Val (c : Char) : Option Nat :=
  if 'A' ≤ c && c ≤ 'Z' then some (c.toNat - 65)
  else if 'a' ≤ c && c ≤ 'z' then some (c.toNat - 97 + 26)
  else if '0' ≤ c && c ≤ '9' then some (c.toNat - 48 + 52)
  else if c = '+' then some 62
  else if c = '/' then some 63
  else none

/-- Base64 character for a 6-bit value. -/
def b64Char (n : Nat) : Char :=
  if n < 26 then Char.ofNat (65 + n)
  else if n < 52 then Char.ofNat (97 + n - 26)
  else if n < 62 then Char.ofNat (48 + n - 52)
  else if n = 62 then '+' else '/'

/-- Canonical base64 encoding of a byte list, with `=` padding, as
produced by Node `buf.toString("base64")`. -/
def b64EncodeChars : List Nat → List Char
  | b0 :: b1 :: b2 :: rest =>
      b64Char (b0 / 4) :: b64Char (b0 % 4 * 16 + b1 / 16) ::
      b64Char (b1 % 16 * 4 + b2 / 64) :: b64Char (b2 % 64) ::
      b64EncodeChars rest
  | [b0, b1] =>
      [b64Char (b0 / 4), b64Char (b0 % 4 * 16 + b1 / 16),
       b64Char (b1 % 16 * 4), '=']
  | [b0] =>
      [b64Char (b0 / 4), b64Char (b0 % 4 * 16), '=', '=']
  | [] => []

def b64Encode (bs : List Nat) : String :=
  ⟨b64EncodeChars bs⟩

/-- Strict decoder for canonical base64: groups of four characters, `=`
padding only at the end, zero trailing bits.  Exactly the strings this
decoder accepts survive Node's `Buffer.from(d, "base64").toString("base64")
=== d` round-trip check in `addComponentHash` (src/index.js lines 349-350):
Node's lenient decoder maps every other string to a different re-encoding. -/
def b64DecodeChars : List Char → Option (List Nat)
  | [] => some []
  | [c0, c1, '=', '='] => do
      let v0 ← b64Val c0
      let v1 ← b64Val c1
      if v1 % 16 = 0 then some [v0 * 4 + v1 / 16] else none
  | [c0, c1, c2, '='] => do
      let v0 ← b64Val c0
      let v1 ← b64Val c1
      let v2 ← b64Val c2
      if v2 % 4 = 0 then some [v0 * 4 + v1 / 16, v1 % 16 * 16 + v2 / 4]
      else none
  | c0 :: c1 :: c2 :: c3 :: rest => do
      let v0 ← b64Val c0
      let v1 ← b64Val c1
      let v2 ← b64Val c2
      let v3 ← b64Val c3
      let tail ← b64DecodeChars rest
      some ((v0 * 4 + v1 / 16) :: (v1 % 16 * 16 + v2 / 4) ::
            (v2 % 4 * 64 + v3) :: tail)
  | _ => none

def b64Decode (s : String) : Option (List Nat) :=
  b64DecodeChars s.data

/-- The `addComponentHash` base64 detection: decode then re-encode and
compare with the input. -/
def isBase64Encoded (s : String) : Bool :=
  match b64Decode s with
  | some bs => b64Encode bs == s
  | none => false

/-- Lowercase-hex equivalent of a base64 digest
(`Buffer.from(digest, "base64").toString("hex")`). -/
def b64ToHex (s : String) : String :=
  hexOfBytes ((b64Decode s).getD [])

/-- Result of the external `parse-packagejson-name` dependency: the scope
(without `@`) and the full name with the scope stripped. -/
structure PkgIdentifier where
  scope : Option String
  fullName : String
  deriving Repr, DecidableEq

/-- JS `String.prototype.startsWith`, character-wise. -/
def jsStartsWith (s pre : String) : Bool :=
  pre.data.isPrefixOf s.data

/-- Splits a character list at its first `/`: the part before (free of
`/`) and the part after. -/
def breakAtSlash : List Char → Option (List Char × List Char)
  | [] => none
  | '/' :: rest => some ([], rest)
  | c :: rest => (breakAtSlash rest).map (fun p => (c :: p.1, p.2))

/-- The tail part of the `parse-packagejson-name` regex
`(?:@([^/]+)\/)?(([^.]+)(?:\.(.*))?)$`: any nonempty string not starting
with a dot. -/
def pjnTailOk (s : String) : Bool :=
  match s.data with
  | [] => false
  | c :: _ => c ≠ '.'

/-- Models the external `parse-packagejson-name` dependency, which matches
`^(?:@([^/]+)\/)?(([^.]+)(?:\.(.*))?)$`: an optional `@scope/` prefix is
split off at the first slash, the remainder is the full name.  On no
match both results are empty/none. -/
def parsePackageJsonName (name : String) : PkgIdentifier :=
  let noScope : PkgIdentifier :=
    if pjnTailOk name then ⟨none, name⟩ else ⟨none, ""⟩
  match name.data with
  | '@' :: afterAt =>
      match breakAtSlash afterAt with
      | some (scopeChars, restChars) =>
          let rest : String := ⟨restChars⟩
          if scopeChars ≠ [] && pjnTailOk rest then
            ⟨some ⟨scopeChars⟩, rest⟩
          else noScope
      | none => noScope
  | _ => noScope

/-- A single `{algorithm, digest-content}` hash entry of a component
(`{"@alg", "#text"}` in XML, `{alg, content}` in JSON — same content). -/
structure HashEntry where
  alg : String
  content : String
  deriving Repr, DecidableEq

/-- One external reference (`website` / `issue-tracker` / `vcs`). -/
structure ExtRef where
  type : String
  url : String
  deriving Repr, DecidableEq

/-- Parse result of the external `ssri` library on `pkg._integrity`:
the first digest recorded per supported algorithm (the source reads
`integrity.<alg>[0].digest` after a `hasOwnProperty` check).  A failed
parse (`ssri.parse(...) || {}`) is the all-`none` value. -/
structure Integrity where
  sha512 : Option String
  sha384 : Option String
  sha256 : Option String
  sha1 : Option String
  deriving Repr, DecidableEq

/-- Scalar fields of a Package Record as consumed by `addComponent` /
`processHashes` / `addExternalReferences` (src/index.js). -/
structure PkgBase where
  name : String
  group : Option String
  version : Option String
  extraneous : Bool
  scope : Option String
  description : Option String
  keywords : Option (List String)
  homepage : Option String
  bugsUrl : Option String
  repositoryUrl : Option String
  licenses : Option String
  shasum : Option String
  integrity : Option Integrity
  deriving Repr, DecidableEq

mutual
/-- A Package Record tree: scalar fields plus the insertion-ordered
`dependencies` object. -/
inductive Pkg : Type where
  | mk (base : PkgBase) (deps : DepList)
  deriving Repr, DecidableEq

/-- The `dependencies` object of a record: each entry is either a string
value (a cycle marker, `consMarker`) or a nested record (`consPkg`). -/
inductive DepList : Type where
  | nil
  | consMarker (key val : String) (rest : DepList)
  | consPkg (key : String) (p : Pkg) (rest : DepList)
  deriving Repr, DecidableEq
end

def Pkg.base : Pkg → PkgBase
  | .mk b _ => b

def Pkg.deps : Pkg → DepList
  | .mk _ d => d

/-- The `pkgInfo` argument of `buildBomString`: the tree produced by
`read-installed` or the flat array produced by the lockfile parsers
(`Array.isArray(pkg)` in `listComponents`). -/
inductive PkgInfo : Type where
  | one (p : Pkg)
  | many (ps : List Pkg)
  deriving Repr, DecidableEq

/-- The serialization target.  The XML and JSON shapes of a component
differ only in key naming (`@type` vs `type`, `#cdata` wrapper vs plain
string) and in the per-item `{component: ...}` wrapper, so one record
represents both. -/
inductive Format : Type where
  | xml
  | json
  deriving Repr, DecidableEq

/-- The assembled CycloneDX component. -/
structure Component where
  type : String
  bomRef : String
  group : String
  name : String
  version : Option String
  description : Option String
  scope : Option String
  hashes : Option (List HashEntry)
  licenses : Option String
  purl : String
  externalReferences : Option (List ExtRef)
  deriving Repr, DecidableEq

/-- Function `determinePackageType` (src/index.js lines 276-285): "framework" when a
keyword case-insensitively equals "framework", else "library". -/
def determinePackageType (base : PkgBase) : String :=
  match base.keywords with
  | some ks => if ks.any (fun k => k.toLower == "framework") then "framework"
               else "library"
  | none => "library"

/-- Function `addExternalReferences` (src/index.js lines 116-155): homepage, bug
tracker and repository URLs, in that order; absent fields yield no entry.
The XML and JSON branches differ only in key names. -/
def addExternalReferences (base : PkgBase) : List ExtRef :=
  (match base.homepage with
   | some h => if h ≠ "" then [⟨"website", h⟩] else []
   | none => []) ++
  (match base.bugsUrl with
   | some b => if b ≠ "" then [⟨"issue-tracker", b⟩] else []
   | none => []) ++
  (match base.repositoryUrl with
   | some r => if r ≠ "" then [⟨"vcs", r⟩] else []
   | none => [])

/-- Models `new PackageURL(ptype, group, name, version, ...).toString()`
followed by `decodeURIComponent`, for records without qualifiers and
subpath (the assembly engine passes `pkg.qualifiers` / `pkg.subpath`,
which the parsers never set).  After percent-decoding the rendered purl is
`pkg:type/group/name@version` with empty parts omitted. -/
def purlString (ptype group name : String) (version : Option String) :
    String :=
  "pkg:" ++ ptype ++ "/" ++
  (if group = "" then "" else group ++ "/") ++ name ++
  (match version with
   | some v => "@" ++ v
   | none => "")

/-- The digest normalization inside `addComponentHash` (src/index.js
lines 343-354): a digest matching `HASH_PATTERN` is kept; otherwise a
digest surviving the base64 round-trip check is converted to lowercase
hex; anything else is kept as is. -/
def normalizeDigest (digest : String) : String :=
  if matchesHashPattern digest then digest
  else if isBase64Encoded digest then b64ToHex digest
  else digest

/-- Function `addComponentHash` (src/index.js lines 342-362), returning the list of
hash entries after the push. -/
def addComponentHash (alg digest : String) (hashes : List HashEntry) :
    List HashEntry :=
  hashes ++ [⟨alg, normalizeDigest digest⟩]

/-- Function `processHashes` (src/index.js lines 291-337) as the final value of the
component's optional `hashes` field: a truthy `_shasum` is pushed as a raw
SHA-1 entry; otherwise each algorithm present in the parsed integrity is
pushed via `addComponentHash` in the fixed order SHA-512, SHA-384,
SHA-256, SHA-1; an empty result deletes the field. -/
def processHashes (base : PkgBase) : Option (List HashEntry) :=
  let hs : List HashEntry :=
    if truthyS base.shasum then [⟨"SHA-1", base.shasum.getD ""⟩]
    else match base.integrity with
      | some it =>
          let h0 : List HashEntry := []
          let h1 := match it.sha512 with
            | some d => addComponentHash "SHA-512" d h0
            | none => h0
          let h2 := match it.sha384 with
            | some d => addComponentHash "SHA-384" d h1
            | none => h1
          let h3 := match it.sha256 with
            | some d => addComponentHash "SHA-256" d h2
            | none => h2
          match it.sha1 with
            | some d => addComponentHash "SHA-1" d h3
            | none => h3
      | none => []
  if hs = [] then none else some hs

/-- JS `a || b` on two optional string fields: the first truthy value. -/
def jsOr (a b : Option String) : Option String :=
  if truthyS a then a else b

/-- The effective group of a non-root record
(`pkg.group || pkgIdentifier.scope || ""`). -/
def effGroup (base : PkgBase) : String :=
  (jsOr base.group (parsePackageJsonName base.name).scope).getD ""

/-- The effective name of a non-root record
(`pkgIdentifier.fullName || pkg.name`). -/
def effName (base : PkgBase) : String :=
  let fn := (parsePackageJsonName base.name).fullName
  if fn = "" then base.name else fn

/-- The `@types` filter for npm (src/index.js line 200). -/
def npmTypesFiltered (base : PkgBase) (ptype : String) : Bool :=
  ptype == "npm" &&
    (effGroup base == "types" || jsStartsWith (effName base) "@types")

/-- Scope resolution (src/index.js lines 225-241).  `allImports` is `none`
when the caller passed a falsy value and `some keys` for an object with
the given key list (an empty object is truthy in JS). -/
def resolveScope (allImports : Option (List String)) (base : PkgBase) :
    Option String :=
  let compScope := base.scope
  match allImports with
  | some impPkgs =>
      let group := effGroup base
      let name := effName base
      if impPkgs.contains name ||
         impPkgs.contains (group ++ "/" ++ name) ||
         impPkgs.contains ("@" ++ group ++ "/" ++ name) ||
         impPkgs.contains group ||
         impPkgs.contains ("@" ++ group) then some "required"
      else if impPkgs ≠ [] then some "optional"
      else compScope
  | none => compScope

/-- The component built for a non-root, non-filtered record
(src/index.js lines 194-259).  `utils.getLicenses` is external and is
modelled as the record's carried license data.  The `format` argument
changes key naming only, not content. -/
def makeComponent (allImports : Option (List String)) (base : PkgBase)
    (ptype : String) (fmt : Format) : Component :=
  let group := effGroup base
  let name := effName base
  let purl := purlString ptype group name base.version
  let extRefs := addExternalReferences base
  { type := determinePackageType base
    bomRef := purl
    group := group
    name := name
    version := base.version
    description := base.description
    scope := match resolveScope allImports base with
      | some s => if s ≠ "" then some s else none
      | none => none
    hashes := processHashes base
    licenses := base.licenses
    purl := purl
    externalReferences := if extRefs = [] then none else some extRefs }

/-- The insertion-ordered component map (the JS object `list`). -/
abbrev CMap := List (String × Component)

/-- The `list[key]` lookup on the component map. -/
def lookupC : CMap → String → Option Component
  | [], _ => none
  | (k, c) :: rest, key => if k = key then some c else lookupC rest key

mutual
/-- Function `addComponent` (src/index.js lines 182-270): skip extraneous records;
for non-root records compute the component, drop npm `@types` records and
records whose purl is already present (without traversing their
dependencies), otherwise insert; finally walk the `dependencies` entries
in order, skipping string cycle markers. -/
def addComponent (allImports : Option (List String)) (p : Pkg)
    (ptype : String) (list : CMap) (isRootPkg : Bool) (fmt : Format) :
    CMap :=
  match p with
  | .mk base deps =>
    if base.extraneous then list
    else if isRootPkg then addDeps allImports deps ptype list fmt
    else if npmTypesFiltered base ptype then list
    else
      let comp := makeComponent allImports base ptype fmt
      if (lookupC list comp.purl).isSome then list
      else addDeps allImports deps ptype (list ++ [(comp.purl, comp)]) fmt

/-- The dependency walk at the end of `addComponent` (lines 264-269):
`Object.keys(...).map(...).filter(x => typeof x !== "string").map(...)`
applied in insertion order against the shared map. -/
def addDeps (allImports : Option (List String)) (ds : DepList)
    (ptype : String) (list : CMap) (fmt : Format) : CMap :=
  match ds with
  | .nil => list
  | .consMarker _ _ rest => addDeps allImports rest ptype list fmt
  | .consPkg _ p rest =>
      addDeps allImports rest ptype
        (addComponent allImports p ptype list false fmt) fmt
end

/-- Function `listComponents` (src/index.js lines 162-177).  A single record is the
root exactly when `ptype === "npm"`; an array is walked element-wise as
non-root.  The XML `{component: c}` wrapper is a rendering detail, so both
formats return the map's values in insertion order. -/
def listComponents (allImports : Option (List String)) (pkg : PkgInfo)
    (ptype : String) (fmt : Format) : List Component :=
  let isRootPkg := ptype == "npm"
  let list : CMap :=
    match pkg with
    | .many ps =>
        ps.foldl (fun l p => addComponent allImports p ptype l false fmt) []
    | .one p => addComponent allImports p ptype [] isRootPkg fmt
  list.map Prod.snd

/-- Whether `needle` occurs as a contiguous sublist of `hay`. -/
def sublistB (needle : List Char) : List Char → Bool
  | [] => needle.isEmpty
  | c :: rest => needle.isPrefixOf (c :: rest) || sublistB needle rest

/-- Substring test modelling JS `String.prototype.includes`. -/
def containsSub (hay needle : String) : Bool :=
  if needle = "" then true else sublistB needle.data hay.data

/-- An entry of the global `externalReferences` block. -/
structure GlobalRef where
  type : String
  url : String
  comment : String
  deriving Repr, DecidableEq

/-- Function `addGlobalReferences` (src/index.js lines 64-81).  `pathLib.join` is
modelled as separator concatenation. -/
def addGlobalReferences (src filename : String) : List GlobalRef :=
  let packageFileMeta :=
    if containsSub filename src then filename else src ++ "/" ++ filename
  [⟨"other", src, "Base path"⟩,
   ⟨"other", packageFileMeta, "Package file"⟩]

/-- The BOM `metadata` block.  The tool/author identity comes from the
tool's own package.json, constant within a build, modelled as fixed
strings. -/
structure Metadata where
  timestamp : String
  toolVendor : String
  toolName : String
  toolVersion : String
  authorName : String
  authorEmail : String
  deriving Repr, DecidableEq

/-- Function `addMetadata` (src/index.js lines 87-108): a fixed sentinel timestamp
in deterministic mode, else the current time (an explicit argument here). -/
def addMetadata (deterministicForTests : Bool) (now : String) : Metadata :=
  { timestamp := if deterministicForTests then "2022-06-03T09:34:10.062Z"
                 else now
    toolVendor := "AppThreat"
    toolName := "cdxgen"
    toolVersion := "selfPjson.version"
    authorName := "selfPjson.author"
    authorEmail := "cloud@appthreat.com" }

/-- The XML-shaped BOM document built via xmlbuilder. -/
structure XmlBom where
  serialNumber : Option String
  version : Nat
  externalReferences : Option (List GlobalRef)
  metadata : Metadata
  components : List Component
  deriving Repr, DecidableEq

/-- The CycloneDX 1.2 JSON template (src/index.js lines 401-408). -/
structure JsonBom where
  bomFormat : String
  specVersion : String
  serialNumber : String
  version : Nat
  metadata : Metadata
  components : List Component
  deriving Repr, DecidableEq

/-- The `context` argument of `buildBomString`. -/
structure BomContext where
  src : Option String
  filename : Option String
  allImports : Option (List String)
  nsMapping : Option (List (String × String))
  deriving Repr, DecidableEq

/-- What `buildBomString` passes to its callback: nothing when the
component list is empty, else the XML document, the JSON document and the
namespace mapping. -/
inductive BomResult : Type where
  | empty
  | ok (xml : XmlBom) (json : JsonBom) (ns : List (String × String))
  deriving Repr, DecidableEq

/-- Function `buildBomString` (src/index.js lines 364-413) with its two
nondeterministic inputs — the generated UUID and the current time — made
explicit.  The XML serial-number attribute is set only outside
deterministic mode, while the JSON template always embeds the freshly
generated serial number. -/
def buildBomString (uuid now : String) (deterministicForTests : Bool)
    (pkgInfo : PkgInfo) (ptype : String) (context : BomContext) :
    BomResult :=
  let serialNum := "urn:uuid:" ++ uuid
  let xmlSerial := if deterministicForTests then none else some serialNum
  let ctxFilename :=
    if deterministicForTests then some "/some/full/path" else context.filename
  let globalRefs :=
    if truthyS context.src && truthyS context.filename then
      some (addGlobalReferences (context.src.getD "") (ctxFilename.getD ""))
    else none
  let allImports : Option (List String) := some (context.allImports.getD [])
  let nsMapping := context.nsMapping.getD []
  let metadata := addMetadata deterministicForTests now
  let components := listComponents allImports pkgInfo ptype .xml
  if components ≠ [] then
    .ok
      { serialNumber := xmlSerial
        version := 1
        externalReferences := globalRefs
        metadata := metadata
        components := components }
      { bomFormat := "CycloneDX"
        specVersion := "1.2"
        serialNumber := serialNum
        version := 1
        metadata := metadata
        components := listComponents allImports pkgInfo ptype .json }
      nsMapping
  else .empty

/-- The XML document handed to the callback, if any. -/
def BomResult.xmlOf : BomResult → Option XmlBom
  | .empty => none
  | .ok x _ _ => some x

/-- The JSON document handed to the callback, if any. -/
def BomResult.jsonOf : BomResult → Option JsonBom
  | .empty => none
  | .ok _ j _ => some j

/-- A record template with every optional field absent, used to state
concrete instances. -/
def emptyBase : PkgBase :=
  { name := "", group := none, version := none, extraneous := false
    scope := none, description := none, keywords := none, homepage := none
    bugsUrl := none, repositoryUrl := none, licenses := none
    shasum := none, integrity := none }

mutual
/-- Removing string cycle markers from a record tree. -/
def stripMarkers : Pkg → Pkg
  | .mk base deps => .mk base (stripMarkersD deps)

/-- Removing string cycle markers from a dependency object. -/
def stripMarkersD : DepList → DepList
  | .nil => .nil
  | .consMarker _ _ rest => stripMarkersD rest
  | .consPkg k p rest => .consPkg k (stripMarkers p) (stripMarkersD rest)
end

/-- Removing string cycle markers from a whole input. -/
def stripInfo : PkgInfo → PkgInfo
  | .one p => .one (stripMarkers p)
  | .many ps => .many (ps.map stripMarkers)

/-- Invariant of the component map: keys are pairwise distinct and each
entry is keyed by its component's purl. -/
def goodMap (l : CMap) : Prop :=
  (l.map Prod.fst).Nodup ∧ ∀ kc ∈ l, Prod.fst kc = (Prod.snd kc).purl

/-- The integrity-derived hash list exactly as §4.4 of the specification
words it: one entry per algorithm found, in the fixed priority order
SHA-512, SHA-384, SHA-256, SHA-1, with the digest normalized.  Stated
separately from `processHashes` so the code can be proved to refine the
specification sentence. -/
def specIntegrityHashes : Option Integrity → List HashEntry
  | none => []
  | some it =>
      [("SHA-512", it.sha512), ("SHA-384", it.sha384),
       ("SHA-256", it.sha256), ("SHA-1", it.sha1)].filterMap
        (fun p => p.2.map fun d => (⟨p.1, normalizeDigest d⟩ : HashEntry))

/-- Lookup of an existing key is unaffected by appending entries. -/
theorem lookupC_append_some {l : CMap} {k : String} {c : Component}
    (h : lookupC l k = some c) (ext : CMap) :
    lookupC (l ++ ext) k = some c := by
  induction l with
  | nil => simp [lookupC] at h
  | cons kc rest ih =>
    obtain ⟨k0, c0⟩ := kc
    simp only [List.cons_append, lookupC] at h ⊢
    by_cases hk : k0 = k
    · simpa [hk] using h
    · simp only [hk, if_false] at h ⊢
      exact ih h

/-- Appending a fresh key makes it found. -/
theorem lookupC_append_fresh {l : CMap} {k : String}
    (h : lookupC l k = none) (c : Component) :
    lookupC (l ++ [(k, c)]) k = some c := by
  induction l with
  | nil => simp [lookupC]
  | cons kc rest ih =>
    obtain ⟨k0, c0⟩ := kc
    simp only [lookupC] at h
    by_cases hk : k0 = k
    · simp [hk] at h
    · simp only [List.cons_append, lookupC, hk, if_false] at h ⊢
      exact ih h

/-- A key that is not found is not among the keys. -/
theorem lookupC_none_not_mem {l : CMap} {k : String}
    (h : lookupC l k = none) : k ∉ l.map Prod.fst := by
  induction l with
  | nil => simp
  | cons kc rest ih =>
    obtain ⟨k0, c0⟩ := kc
    simp only [lookupC] at h
    by_cases hk : k0 = k
    · simp [hk] at h
    · simp only [hk, if_false] at h
      simp only [List.map_cons, List.mem_cons]
      push_neg
      exact ⟨fun he => hk he.symm, ih h⟩

theorem goodMap_nil : goodMap [] := by
  constructor
  · simp
  · intro kc h; simp at h

/-- Inserting a fresh purl-keyed entry preserves the invariant. -/
theorem goodMap_append {l : CMap} {c : Component}
    (hg : goodMap l) (hf : lookupC l c.purl = none) :
    goodMap (l ++ [(c.purl, c)]) := by
  obtain ⟨hnd, hwf⟩ := hg
  constructor
  · rw [List.map_append]
    rw [List.nodup_append]
    refine ⟨hnd, by simp, ?_⟩
    intro a ha
    simp only [List.map_cons, List.map_nil, List.mem_singleton]
    intro he
    exact lookupC_none_not_mem hf (he ▸ ha)
  · intro kc hm
    rcases List.mem_append.mp hm with hm | hm
    · exact hwf kc hm
    · simp at hm
      subst hm
      rfl

/-- Unfolding of `addComponent` on a constructor. -/
theorem addComponent_unfold (ai : Option (List String)) (base : PkgBase)
    (deps : DepList) (ptype : String) (list : CMap) (isRoot : Bool)
    (fmt : Format) :
    addComponent ai (.mk base deps) ptype list isRoot fmt =
      (if base.extraneous then list
       else if isRoot then addDeps ai deps ptype list fmt
       else if npmTypesFiltered base ptype then list
       else if (lookupC list (makeComponent ai base ptype fmt).purl).isSome
         then list
       else addDeps ai deps ptype
         (list ++ [((makeComponent ai base ptype fmt).purl,
                    makeComponent ai base ptype fmt)]) fmt) := rfl

/-- Unfolding of `addDeps` on the empty object. -/
theorem addDeps_nil (ai : Option (List String)) (ptype : String)
    (list : CMap) (fmt : Format) :
    addDeps ai .nil ptype list fmt = list := rfl

/-- Unfolding of `addDeps` on a cycle-marker entry. -/
theorem addDeps_marker (ai : Option (List String)) (k v : String)
    (rest : DepList) (ptype : String) (list : CMap) (fmt : Format) :
    addDeps ai (.consMarker k v rest) ptype list fmt =
      addDeps ai rest ptype list fmt := rfl

/-- Unfolding of `addDeps` on a nested-record entry. -/
theorem addDeps_pkg (ai : Option (List String)) (k : String) (p : Pkg)
    (rest : DepList) (ptype : String) (list : CMap) (fmt : Format) :
    addDeps ai (.consPkg k p rest) ptype list fmt =
      addDeps ai rest ptype (addComponent ai p ptype list false fmt) fmt :=
  rfl

mutual
/-- The walk only ever appends entries to the component map. -/
theorem addComponent_ext (ai : Option (List String)) (p : Pkg)
    (ptype : String) (list : CMap) (isRoot : Bool) (fmt : Format) :
    ∃ ext, addComponent ai p ptype list isRoot fmt = list ++ ext :=
  match p with
  | .mk base deps => by
    rw [addComponent_unfold]
    by_cases hx : base.extraneous = true
    · exact ⟨[], by rw [if_pos hx]; simp⟩
    · rw [if_neg hx]
      by_cases hr : isRoot = true
      · rw [if_pos hr]
        exact addDeps_ext ai deps ptype list fmt
      · rw [if_neg hr]
        by_cases hf : npmTypesFiltered base ptype = true
        · exact ⟨[], by rw [if_pos hf]; simp⟩
        · rw [if_neg hf]
          by_cases hl :
              (lookupC list (makeComponent ai base ptype fmt).purl).isSome
                = true
          · exact ⟨[], by rw [if_pos hl]; simp⟩
          · rw [if_neg hl]
            obtain ⟨e2, he2⟩ := addDeps_ext ai deps ptype
              (list ++ [((makeComponent ai base ptype fmt).purl,
                         makeComponent ai base ptype fmt)]) fmt
            exact ⟨[((makeComponent ai base ptype fmt).purl,
                     makeComponent ai base ptype fmt)] ++ e2,
                   by rw [he2, List.append_assoc]⟩

/-- The dependency walk only ever appends entries to the component map. -/
theorem addDeps_ext (ai : Option (List String)) (ds : DepList)
    (ptype : String) (list : CMap) (fmt : Format) :
    ∃ ext, addDeps ai ds ptype list fmt = list ++ ext :=
  match ds with
  | .nil => ⟨[], by simp [addDeps_nil]⟩
  | .consMarker k v rest => by
      rw [addDeps_marker]
      exact addDeps_ext ai rest ptype list fmt
  | .consPkg k p rest => by
      rw [addDeps_pkg]
      obtain ⟨e1, he1⟩ := addComponent_ext ai p ptype list false fmt
      obtain ⟨e2, he2⟩ := addDeps_ext ai rest ptype
        (addComponent ai p ptype list false fmt) fmt
      exact ⟨e1 ++ e2, by rw [he2, he1, List.append_assoc]⟩
end

mutual
/-- The walk preserves the component-map invariant. -/
theorem addComponent_good (ai : Option (List String)) (p : Pkg)
    (ptype : String) (list : CMap) (isRoot : Bool) (fmt : Format)
    (hg : goodMap list) :
    goodMap (addComponent ai p ptype list isRoot fmt) :=
  match p with
  | .mk base deps => by
    rw [addComponent_unfold]
    by_cases hx : base.extraneous = true
    · simpa only [if_pos hx] using hg
    · simp only [if_neg hx]
      by_cases hr : isRoot = true
      · simp only [if_pos hr]
        exact addDeps_good ai deps ptype list fmt hg
      · simp only [if_neg hr]
        by_cases hf : npmTypesFiltered base ptype = true
        · simpa only [if_pos hf] using hg
        · simp only [if_neg hf]
          by_cases hl :
              (lookupC list (makeComponent ai base ptype fmt).purl).isSome
                = true
          · simpa only [if_pos hl] using hg
          · simp only [if_neg hl]
            have hnone :
                lookupC list (makeComponent ai base ptype fmt).purl = none :=
              Option.not_isSome_iff_eq_none.mp hl
            exact addDeps_good ai deps ptype _ fmt (goodMap_append hg hnone)

/-- The dependency walk preserves the component-map invariant. -/
theorem addDeps_good (ai : Option (List String)) (ds : DepList)
    (ptype : String) (list : CMap) (fmt : Format) (hg : goodMap list) :
    goodMap (addDeps ai ds ptype list fmt) :=
  match ds with
  | .nil => by rw [addDeps_nil]; exact hg
  | .consMarker k v rest => by
      rw [addDeps_marker]
      exact addDeps_good ai rest ptype list fmt hg
  | .consPkg k p rest => by
      rw [addDeps_pkg]
      exact addDeps_good ai rest ptype _ fmt
        (addComponent_good ai p ptype list false fmt hg)
end

mutual
/-- Removing cycle markers does not change the walk: string-valued
dependency entries are never recursed into. -/
theorem addComponent_strip (ai : Option (List String)) (p : Pkg)
    (ptype : String) (list : CMap) (isRoot : Bool) (fmt : Format) :
    addComponent ai (stripMarkers p) ptype list isRoot fmt =
      addComponent ai p ptype list isRoot fmt :=
  match p with
  | .mk base deps => by
    show addComponent ai (.mk base (stripMarkersD deps)) ptype list isRoot
        fmt = _
    rw [addComponent_unfold, addComponent_unfold]
    by_cases hx : base.extraneous = true
    · simp only [if_pos hx]
    · simp only [if_neg hx]
      by_cases hr : isRoot = true
      · simp only [if_pos hr]
        exact addDeps_strip ai deps ptype list fmt
      · simp only [if_neg hr]
        by_cases hf : npmTypesFiltered base ptype = true
        · simp only [if_pos hf]
        · simp only [if_neg hf]
          by_cases hl :
              (lookupC list (makeComponent ai base ptype fmt).purl).isSome
                = true
          · simp only [if_pos hl]
          · simp only [if_neg hl]
            exact addDeps_strip ai deps ptype _ fmt

/-- Removing cycle markers does not change the dependency walk. -/
theorem addDeps_strip (ai : Option (List String)) (ds : DepList)
    (ptype : String) (list : CMap) (fmt : Format) :
    addDeps ai (stripMarkersD ds) ptype list fmt =
      addDeps ai ds ptype list fmt :=
  match ds with
  | .nil => rfl
  | .consMarker k v rest => by
      show addDeps ai (stripMarkersD rest) ptype list fmt = _
      rw [addDeps_marker]
      exact addDeps_strip ai rest ptype list fmt
  | .consPkg k p rest => by
      show addDeps ai (.consPkg k (stripMarkers p) (stripMarkersD rest))
          ptype list fmt = _
      rw [addDeps_pkg, addDeps_pkg,
          addComponent_strip ai p ptype list false fmt]
      exact addDeps_strip ai rest ptype _ fmt
end

/-- The purls of the map's values are its keys. -/
theorem values_purl_nodup {l : CMap} (hg : goodMap l) :
    ((l.map Prod.snd).map Component.purl).Nodup := by
  rw [List.map_map]
  have he : l.map (Component.purl ∘ Prod.snd) = l.map Prod.fst :=
    List.map_congr_left fun kc h => (hg.2 kc h).symm
  rw [he]
  exact hg.1

/-- The array walk of `listComponents` preserves the invariant. -/
theorem foldl_good (ai : Option (List String)) (ps : List Pkg)
    (ptype : String) (fmt : Format) :
    ∀ list : CMap, goodMap list →
      goodMap (ps.foldl (fun l p => addComponent ai p ptype l false fmt)
        list) := by
  induction ps with
  | nil => intro list hg; simpa using hg
  | cons p rest ih =>
      intro list hg
      simp only [List.foldl_cons]
      exact ih _ (addComponent_good ai p ptype list false fmt hg)

/-- The internal component map of `listComponents` satisfies the
invariant. -/
theorem listComponents_good (ai : Option (List String)) (info : PkgInfo)
    (ptype : String) (fmt : Format) :
    goodMap (match info with
      | .many ps =>
          ps.foldl (fun l p => addComponent ai p ptype l false fmt) []
      | .one p => addComponent ai p ptype [] (ptype == "npm") fmt) := by
  cases info with
  | many ps => exact foldl_good ai ps ptype fmt [] goodMap_nil
  | one p =>
      exact addComponent_good ai p ptype [] (ptype == "npm") fmt goodMap_nil

/-- The purls in the output of `listComponents` are pairwise distinct. -/
theorem listComponents_purl_nodup (ai : Option (List String))
    (info : PkgInfo) (ptype : String) (fmt : Format) :
    ((listComponents ai info ptype fmt).map Component.purl).Nodup := by
  cases info with
  | many ps =>
      exact values_purl_nodup (foldl_good ai ps ptype fmt [] goodMap_nil)
  | one p =>
      exact values_purl_nodup
        (addComponent_good ai p ptype [] (ptype == "npm") fmt goodMap_nil)

/-- Stripping markers does not change the array walk either. -/
theorem foldl_strip (ai : Option (List String)) (ps : List Pkg)
    (ptype : String) (fmt : Format) :
    ∀ list : CMap,
      (ps.map stripMarkers).foldl
        (fun l p => addComponent ai p ptype l false fmt) list =
      ps.foldl (fun l p => addComponent ai p ptype l false fmt) list := by
  induction ps with
  | nil => intro list; simp
  | cons p rest ih =>
      intro list
      simp only [List.map_cons, List.foldl_cons]
      rw [addComponent_strip ai p ptype list false fmt]
      exact ih _

/-- After a non-root, non-extraneous, non-filtered record is processed,
its purl is present in the map. -/
theorem addComponent_purl_present (ai : Option (List String))
    (base : PkgBase) (deps : DepList) (ptype : String) (list : CMap)
    (fmt : Format) (hx : base.extraneous = false)
    (hf : npmTypesFiltered base ptype = false) :
    (lookupC (addComponent ai (.mk base deps) ptype list false fmt)
      (makeComponent ai base ptype fmt).purl).isSome = true := by
  have hx' : ¬(base.extraneous = true) := by simp [hx]
  have hf' : ¬(npmTypesFiltered base ptype = true) := by simp [hf]
  rw [addComponent_unfold, if_neg hx',
      if_neg (by simp : ¬(false = true)), if_neg hf']
  by_cases hl :
      (lookupC list (makeComponent ai base ptype fmt).purl).isSome = true
  · rw [if_pos hl]; exact hl
  · rw [if_neg hl]
    have hnone :
        lookupC list (makeComponent ai base ptype fmt).purl = none :=
      Option.not_isSome_iff_eq_none.mp hl
    obtain ⟨ext, he⟩ := addDeps_ext ai deps ptype
      (list ++ [((makeComponent ai base ptype fmt).purl,
                 makeComponent ai base ptype fmt)]) fmt
    rw [he]
    rw [lookupC_append_some (lookupC_append_fresh hnone _) ext]
    rfl

/-- C1: for every dependency forest processed by the assembly engine, the
output component list contains at most one Component per package-URL
(pairwise-distinct purls), and entries already in the map are never
overwritten or removed by later encounters of the same package-URL — the
first encounter wins and later records are dropped. -/
theorem dedup_first_wins (ai : Option (List String)) (info : PkgInfo)
    (ptype : String) (fmt : Format) :
    ((listComponents ai info ptype fmt).map Component.purl).Nodup ∧
    ∀ (p : Pkg) (list : CMap) (k : String) (c : Component)
      (isRoot : Bool), lookupC list k = some c →
      lookupC (addComponent ai p ptype list isRoot fmt) k = some c := by
  constructor
  · exact listComponents_purl_nodup ai info ptype fmt
  · intro p list k c isRoot h
    obtain ⟨ext, he⟩ := addComponent_ext ai p ptype list isRoot fmt
    rw [he]
    exact lookupC_append_some h ext

/-- Witness for C1 at a concrete input: an entry stored for
`pkg:npm/a@1` survives processing a later record unchanged. -/
theorem dedup_first_wins_witness :
    lookupC
      (addComponent none
        (.mk { emptyBase with name := "a", version := some "1", description := some "second" } .nil)
        "npm"
        [("pkg:npm/a@1",
          makeComponent none
            { emptyBase with name := "a", version := some "1", description := some "first" }
            "npm" .xml)] false .xml)
      "pkg:npm/a@1" =
    some (makeComponent none
      { emptyBase with name := "a", version := some "1", description := some "first" }
      "npm" .xml) :=
  (dedup_first_wins none (.many []) "npm" .xml).2 _ _ _ _ _ (by decide)

/-- C2: string-valued `dependencies` entries (cycle markers) are never
recursed into — deleting them from the input changes nothing — the purls
of the output are pairwise distinct, and every non-root, non-extraneous,
non-filtered record leaves its purl present in the map, so assembly of a
self- or mutually-referencing graph yields exactly one Component per
distinct package-URL.  (Termination is intrinsic: the walk is a total
function.) -/
theorem cycle_markers_never_traversed (ai : Option (List String))
    (info : PkgInfo) (ptype : String) (fmt : Format) :
    listComponents ai (stripInfo info) ptype fmt =
      listComponents ai info ptype fmt ∧
    ((listComponents ai info ptype fmt).map Component.purl).Nodup ∧
    ∀ (base : PkgBase) (deps : DepList) (list : CMap),
      base.extraneous = false → npmTypesFiltered base ptype = false →
      (lookupC (addComponent ai (.mk base deps) ptype list false fmt)
        (makeComponent ai base ptype fmt).purl).isSome = true := by
  refine ⟨?_, listComponents_purl_nodup ai info ptype fmt, ?_⟩
  · cases info with
    | many ps =>
        show ((ps.map stripMarkers).foldl
          (fun l p => addComponent ai p ptype l false fmt) []).map Prod.snd
            = _
        rw [foldl_strip]
        rfl
    | one p =>
        show (addComponent ai (stripMarkers p) ptype []
          (ptype == "npm") fmt).map Prod.snd = _
        rw [addComponent_strip]
        rfl
  · intro base deps list hx hf
    exact addComponent_purl_present ai base deps ptype list fmt hx hf

/-- Witness for C2 at a concrete input: a two-package cycle `a -> b ->
(marker back to a)` assembles and the purl of `a` is present. -/
theorem cycle_markers_never_traversed_witness :
    (lookupC
      (addComponent none
        (.mk { emptyBase with name := "a", version := some "1" }
          (.consPkg "b"
            (.mk { emptyBase with name := "b", version := some "2" }
              (.consMarker "a" "1" .nil)) .nil)) "npm" [] false .xml)
      (makeComponent none
        { emptyBase with name := "a", version := some "1" } "npm"
        .xml).purl).isSome = true :=
  (cycle_markers_never_traversed none (.many []) "npm" .xml).2.2 _ _ []
    (by decide) (by decide)

/-- C8: a Package Record flagged extraneous is skipped entirely —
`addComponent` returns the map unchanged, adding no Component and
traversing none of the record's dependencies. -/
theorem extraneous_excluded (ai : Option (List String)) (p : Pkg)
    (ptype : String) (list : CMap) (isRoot : Bool) (fmt : Format)
    (h : p.base.extraneous = true) :
    addComponent ai p ptype list isRoot fmt = list := by
  cases p with
  | mk base deps =>
      rw [addComponent_unfold]
      exact if_pos h

/-- Witness for C8 at a concrete input: an extraneous record with a
nested dependency contributes nothing. -/
theorem extraneous_excluded_witness :
    addComponent none
      (.mk { emptyBase with name := "x", version := some "1", extraneous := true }
        (.consPkg "a"
          (.mk { emptyBase with name := "a", version := some "1" } .nil)
          .nil)) "npm" [] false .xml = [] :=
  extraneous_excluded none _ "npm" [] false .xml (by decide)

/-- C9: on an npm dependency-tree walk the root record never itself
becomes a Component — the output is exactly the walk of the root's
`dependencies` from the empty map, so every identity field of the root is
irrelevant — while the root's dependencies are still traversed. -/
theorem root_not_a_component (ai : Option (List String)) (base : PkgBase)
    (deps : DepList) (fmt : Format) (h : base.extraneous = false) :
    listComponents ai (.one (.mk base deps)) "npm" fmt =
      (addDeps ai deps "npm" [] fmt).map Prod.snd := by
  show (addComponent ai (.mk base deps) "npm" [] ("npm" == "npm")
    fmt).map Prod.snd = _
  rw [addComponent_unfold, if_neg (by simp [h] : ¬(base.extraneous = true)),
      if_pos (by decide : (("npm" : String) == "npm") = true)]

/-- C3 (code bug): with the deterministic flag set, two runs differing
only in the generated UUID and current time produce identical XML
documents (fixed timestamp, no serial number) but DIFFERENT JSON
documents: `buildBomString` unconditionally embeds the freshly generated
`serialNumber` in the JSON template (src/index.js line 404), contradicting
the documented "hardcode BOM serial number and timestamp" behaviour of
the deterministic flag. -/
theorem deterministic_json_serial_differs :
    (buildBomString "uuid-one" "2020-01-01T00:00:00.000Z" true
      (.many [.mk { emptyBase with name := "a", version := some "1" } .nil])
      "npm" ⟨some "/p", some "package.json", none, none⟩).xmlOf =
    (buildBomString "uuid-two" "2021-02-02T00:00:00.000Z" true
      (.many [.mk { emptyBase with name := "a", version := some "1" } .nil])
      "npm" ⟨some "/p", some "package.json", none, none⟩).xmlOf ∧
    (buildBomString "uuid-one" "2020-01-01T00:00:00.000Z" true
      (.many [.mk { emptyBase with name := "a", version := some "1" } .nil])
      "npm" ⟨some "/p", some "package.json", none, none⟩).jsonOf ≠
    (buildBomString "uuid-two" "2021-02-02T00:00:00.000Z" true
      (.many [.mk { emptyBase with name := "a", version := some "1" } .nil])
      "npm" ⟨some "/p", some "package.json", none, none⟩).jsonOf ∧
    ((buildBomString "uuid-one" "2020-01-01T00:00:00.000Z" true
      (.many [.mk { emptyBase with name := "a", version := some "1" } .nil])
      "npm" ⟨some "/p", some "package.json", none, none⟩).jsonOf.map
        JsonBom.serialNumber) = some "urn:uuid:uuid-one" ∧
    ((buildBomString "uuid-one" "2020-01-01T00:00:00.000Z" true
      (.many [.mk { emptyBase with name := "a", version := some "1" } .nil])
      "npm" ⟨some "/p", some "package.json", none, none⟩).xmlOf.map
        XmlBom.serialNumber) = some none := by
  decide

/-- C4 (counterexample): with the non-empty import map `["g"]` and a
record named `n` in group `g`, neither `n` nor `@g/n` is a key of the
map, so the claim predicts scope "optional" — but the code also matches
the bare group (src/index.js line 232) and yields "required". -/
theorem scope_counterexample :
    (makeComponent (some ["g"])
      { emptyBase with name := "n", group := some "g", version := some "1.0.0" }
      "npm" .xml).scope = some "required" ∧
    ("n" ∈ (["g"] : List String) ∨ "@g/n" ∈ (["g"] : List String) → False) ∧
    some "required" ≠ some "optional" := by
  decide

/-- C4 (amended): with a supplied non-empty import map, a component's
scope is "required" exactly when its effective name, `group/name`,
`@group/name`, its effective group, or `@group` appears as a key, and
"optional" otherwise; with no import map supplied the scope is the
record's own scope hint, omitted when that hint is falsy. -/
theorem scope_resolution (base : PkgBase) (ptype : String) (fmt : Format) :
    (∀ keys : List String, keys ≠ [] →
      (makeComponent (some keys) base ptype fmt).scope =
        (if keys.contains (effName base) ||
            keys.contains (effGroup base ++ "/" ++ effName base) ||
            keys.contains ("@" ++ effGroup base ++ "/" ++ effName base) ||
            keys.contains (effGroup base) ||
            keys.contains ("@" ++ effGroup base)
         then some "required" else some "optional")) ∧
    (makeComponent none base ptype fmt).scope =
      (if truthyS base.scope then base.scope else none) := by
  constructor
  · intro keys hk
    by_cases hm :
        (keys.contains (effName base) ||
         keys.contains (effGroup base ++ "/" ++ effName base) ||
         keys.contains ("@" ++ effGroup base ++ "/" ++ effName base) ||
         keys.contains (effGroup base) ||
         keys.contains ("@" ++ effGroup base)) = true
    · simp only [makeComponent, resolveScope, if_pos hm]
      rfl
    · simp only [makeComponent, resolveScope, if_neg hm, if_pos hk]
      rfl
  · cases hs : base.scope with
    | none => simp [makeComponent, resolveScope, truthyS, hs]
    | some s => by_cases h : s = "" <;>
        simp [makeComponent, resolveScope, truthyS, hs, h]

/-- Witness for the amended C4 at concrete inputs: `left-pad` with map
key `left-pad` is "required"; `right-pad` against the same map is
"optional". -/
theorem scope_resolution_witness :
    (makeComponent (some ["left-pad"])
      { emptyBase with name := "left-pad", version := some "1.0.0" }
      "npm" .xml).scope = some "required" ∧
    (makeComponent (some ["left-pad"])
      { emptyBase with name := "right-pad", version := some "1.0.0" }
      "npm" .xml).scope = some "optional" := by
  constructor
  · rw [(scope_resolution
      { emptyBase with name := "left-pad", version := some "1.0.0" }
      "npm" .xml).1 ["left-pad"] (by decide)]
    decide
  · rw [(scope_resolution
      { emptyBase with name := "right-pad", version := some "1.0.0" }
      "npm" .xml).1 ["left-pad"] (by decide)]
    decide

/-- C5: hash resolution precedence — a truthy raw `_shasum` is used
exclusively as a single SHA-1 entry (the integrity field is ignored);
otherwise one entry is emitted per algorithm present in the parsed
integrity, in the fixed order SHA-512, SHA-384, SHA-256, SHA-1; if no
hashes result the `hashes` field is deleted. -/
theorem hash_precedence (base : PkgBase) :
    (truthyS base.shasum = true →
      processHashes base = some [⟨"SHA-1", base.shasum.getD ""⟩]) ∧
    (truthyS base.shasum = false →
      processHashes base =
        (if specIntegrityHashes base.integrity = [] then none
         else some (specIntegrityHashes base.integrity))) := by
  constructor
  · intro h
    simp [processHashes, h]
  · intro h
    cases hi : base.integrity with
    | none => simp [processHashes, h, hi, specIntegrityHashes]
    | some it =>
        obtain ⟨s512, s384, s256, s1⟩ := it
        cases s512 <;> cases s384 <;> cases s256 <;> cases s1 <;>
          simp [processHashes, h, hi, specIntegrityHashes, addComponentHash]

/-- Witness for C5 at concrete inputs: a record with both `_shasum` and
integrity data uses only the shasum; a shasum-free record emits SHA-512
before SHA-1 and normalizes each digest. -/
theorem hash_precedence_witness :
    processHashes
      { emptyBase with
        shasum := some "abc"
        integrity := some ⟨some "ff", none, none, none⟩ } =
      some [⟨"SHA-1", "abc"⟩] ∧
    processHashes
      { emptyBase with
        integrity := some ⟨some "aGVsbG8=", none, none,
          some "aaaaaaaaaaaaaaaaaaaaaaaaaaaaaaaaaaaaaaaa"⟩ } =
      some [⟨"SHA-512", "68656c6c6f"⟩,
            ⟨"SHA-1", "aaaaaaaaaaaaaaaaaaaaaaaaaaaaaaaaaaaaaaaa"⟩] := by
  constructor
  · exact ((hash_precedence _).1 (by decide)).trans (by decide)
  · exact ((hash_precedence _).2 (by decide)).trans (by decide)

/-- C6 (counterexample): a digest of sixty-four `a` characters both
matches the hex pattern and survives the base64 round-trip check; the
code emits it unchanged, not as its lowercase-hex equivalent, so the
claim's unconditional base64 clause fails. -/
theorem hash_normalization_counterexample :
    matchesHashPattern
      "aaaaaaaaaaaaaaaaaaaaaaaaaaaaaaaaaaaaaaaaaaaaaaaaaaaaaaaaaaaaaaaa"
      = true ∧
    isBase64Encoded
      "aaaaaaaaaaaaaaaaaaaaaaaaaaaaaaaaaaaaaaaaaaaaaaaaaaaaaaaaaaaaaaaa"
      = true ∧
    addComponentHash "SHA-256"
      "aaaaaaaaaaaaaaaaaaaaaaaaaaaaaaaaaaaaaaaaaaaaaaaaaaaaaaaaaaaaaaaa"
      [] =
      [⟨"SHA-256",
        "aaaaaaaaaaaaaaaaaaaaaaaaaaaaaaaaaaaaaaaaaaaaaaaaaaaaaaaaaaaaaaaa"⟩]
      ∧
    b64ToHex
      "aaaaaaaaaaaaaaaaaaaaaaaaaaaaaaaaaaaaaaaaaaaaaaaaaaaaaaaaaaaaaaaa"
      ≠ "aaaaaaaaaaaaaaaaaaaaaaaaaaaaaaaaaaaaaaaaaaaaaaaaaaaaaaaaaaaaaaaa"
      := by
  decide

/-- C6 (amended): a digest matching the hex pattern is emitted unchanged
— this check takes precedence; otherwise a base64-encoded digest is
emitted as its lowercase-hex equivalent. -/
theorem hash_normalization (alg digest : String)
    (hashes : List HashEntry) :
    (matchesHashPattern digest = true →
      addComponentHash alg digest hashes = hashes ++ [⟨alg, digest⟩]) ∧
    (matchesHashPattern digest = false → isBase64Encoded digest = true →
      addComponentHash alg digest hashes =
        hashes ++ [⟨alg, b64ToHex digest⟩]) := by
  constructor
  · intro h
    simp [addComponentHash, normalizeDigest, h]
  · intro h hb
    simp [addComponentHash, normalizeDigest, h, hb]

/-- Witness for the amended C6 at concrete inputs: the base64 digest
`aGVsbG8=` is emitted as its hex equivalent. -/
theorem hash_normalization_witness :
    addComponentHash "SHA-1" "aGVsbG8=" [] = [⟨"SHA-1", "68656c6c6f"⟩] := by
  rw [(hash_normalization "SHA-1" "aGVsbG8=" []).2 (by decide) (by decide)]
  decide

/-- C7 (counterexample): a record with raw name `@types/node` but an
explicit group `other` is NOT filtered — the explicit group overrides the
parsed scope and the effective name `node` does not start with `@types`,
so the record does become a Component. -/
theorem types_filter_counterexample :
    (listComponents none
      (.many [.mk { emptyBase with group := some "other", name := "@types/node", version := some "1" } .nil])
      "npm" .xml).map Component.purl = ["pkg:npm/other/node@1"] := by
  decide

/-- C7 (amended): an npm record whose effective group — the record's own
group field if truthy, else the scope parsed from its name — is `types`,
or whose effective name (the scope-stripped name, falling back to the raw
name) starts with `@types`, never becomes a Component: `addComponent`
returns the map unchanged without traversing its dependencies. -/
theorem types_filtered (ai : Option (List String)) (base : PkgBase)
    (deps : DepList) (list : CMap) (fmt : Format)
    (h : effGroup base = "types" ∨
         jsStartsWith (effName base) "@types" = true) :
    addComponent ai (.mk base deps) "npm" list false fmt = list := by
  rw [addComponent_unfold]
  by_cases hx : base.extraneous = true
  · rw [if_pos hx]
  · rw [if_neg hx, if_neg (by simp : ¬(false = true))]
    have hf : npmTypesFiltered base "npm" = true := by
      rcases h with h | h <;> simp [npmTypesFiltered, h]
    rw [if_pos hf]

/-- Witness for the amended C7 at a concrete input: `@types/node` (whose
parsed scope is `types`) is dropped. -/
theorem types_filtered_witness :
    addComponent none
      (.mk { emptyBase with name := "@types/node", version := some "1" } .nil)
      "npm" [] false .xml = [] :=
  types_filtered none _ .nil [] .xml (Or.inl (by decide))

/-- C10: `buildBomString` hands its callback nothing at all exactly when
the assembled component list is empty; a BOM document pair is produced
exactly when at least one Component exists. -/
theorem empty_components_no_bom (uuid now : String) (det : Bool)
    (info : PkgInfo) (ptype : String) (ctx : BomContext) :
    buildBomString uuid now det info ptype ctx = .empty ↔
      listComponents (some (ctx.allImports.getD [])) info ptype .xml
        = [] := by
  by_cases hc :
      listComponents (some (ctx.allImports.getD [])) info ptype .xml = []
  · simp [buildBomString, hc]
  · simp [buildBomString, hc]

/-- Witness for C10 at a concrete input: an empty package array yields
the bare callback. -/
theorem empty_components_no_bom_witness :
    buildBomString "u" "t" false (.many []) "npm" ⟨none, none, none, none⟩
      = .empty :=
  (empty_components_no_bom "u" "t" false (.many []) "npm"
    ⟨none, none, none, none⟩).mpr (by decide)

/-- Witness for C9 at a concrete input: a root with one dependency
produces exactly the dependency walk's components. -/
theorem root_not_a_component_witness :
    listComponents none
      (.one (.mk { emptyBase with name := "root", version := some "9" }
        (.consPkg "a"
          (.mk { emptyBase with name := "a", version := some "1" } .nil)
          .nil))) "npm" .xml =
    (addDeps none
      (.consPkg "a"
        (.mk { emptyBase with name := "a", version := some "1" } .nil)
        .nil) "npm" [] .xml).map Prod.snd :=
  root_not_a_component none _ _ .xml (by decide)

end Cdxgen
